import Mathlib

/-!
Verification of the voice-driven teleoperation bridge (GeminiLiveService and
analyzeScene) against its natural-language specification.

The TypeScript source is shallowly embedded: pure helpers become Lean
functions over `ℚ` (exact arithmetic standing for the JS numeric values,
with explicit truncation where the code truncates), the stateful pieces
(playback cursor, teardown resources) become explicit state passing, and the
asynchronous tool-dispatch loop becomes a trace-producing function in the
`Except` monad (a sink rejection is an `Except.error`, exactly as an
un-caught `await` rejection aborts the enclosing handler).  Message-handler
invocations are modelled as serialized, matching the event-loop delivery of
inbound messages.
-/

namespace Bridge

/-- `MotorCommand` from types.ts: `{cmd:'move', throttle, steer}`. -/
structure MotorCommand where
  cmd : String
  throttle : Int
  steer : Int
deriving DecidableEq, Repr

/-- One function call of an inbound `toolCall` event: `{id, name, args}`,
with the two `moveRobot` arguments the handler reads (`direction`,
`speed`).  `speed = none` models an absent argument. -/
structure FunctionCall where
  id : String
  name : String
  direction : String
  speed : Option Int
deriving DecidableEq, Repr

/-- `const spd = (fc.args.speed as number) || 200`: a JS `||` takes the
right operand when the left is falsy, i.e. absent (`undefined`) or `0`. -/
def effectiveSpeed (speed : Option Int) : Int :=
  match speed with
  | none => 200
  | some s => if s = 0 then 200 else s

/-- The `switch (dir)` of the `onmessage` tool-call branch (part_000 lines
94-109): both axes start at `0`, the matching case sets one of them, and a
direction outside the five cases leaves both at `0`. -/
def deriveMotorCommand (direction : String) (speed : Option Int) : MotorCommand :=
  let spd := effectiveSpeed speed
  let ts : Int × Int :=
    if direction = "forward" then (spd, 0)
    else if direction = "backward" then (-spd, 0)
    else if direction = "left" then (0, -spd)
    else if direction = "right" then (0, spd)
    else if direction = "stop" then (0, 0)
    else (0, 0)
  { cmd := "move", throttle := ts.1, steer := ts.2 }

/-! ## Playback scheduler (`playAudio`, part_000 lines 178-199)

The scheduler owns one mutable cursor `nextStartTime`.  `playAudio` reads
the device clock (`outputContext.currentTime`), takes
`startTime = max now nextStartTime`, starts the buffer there and advances
the cursor by the buffer's duration.  Times and durations are `ℚ`. -/

structure SchedState where
  nextStartTime : ℚ
deriving DecidableEq, Repr

/-- One `playAudio` call: given the device clock reading `now` and the
decoded buffer's duration `d`, return the chosen start time and the new
scheduler state. -/
def playAudio (now d : ℚ) (st : SchedState) : ℚ × SchedState :=
  let startTime := max now st.nextStartTime
  (startTime, ⟨startTime + d⟩)

/-- Start times produced by a run of the scheduler over buffers arriving in
order, each tagged with the clock reading at its arrival and its duration. -/
def scheduleRun (st : SchedState) : List (ℚ × ℚ) → List ℚ
  | [] => []
  | (now, d) :: rest =>
    let p := playAudio now d st
    p.1 :: scheduleRun p.2 rest

/-! ## PCM codec (`createPcmBlob` lines 156-176, `decodeAudioData` lines
201-211)

Samples are exact rationals standing for the JS float values; the only
lossy step the code performs, the `Int16Array` element store, is the
explicit JS `ToInt16` truncation toward zero.  Byte order of the
`Int16Array`/`Uint8Array` view is the platform's, little-endian on every
deployment target, matching the spec's little-endian contract. -/

/-- JS `ToInt16`-style truncation toward zero of a rational. -/
def jsTrunc (q : ℚ) : Int :=
  if q < 0 then Int.ceil q else Int.floor q

/-- `const s = Math.max(-1, Math.min(1, data[i]))`. -/
def clampSample (s : ℚ) : ℚ := max (-1) (min 1 s)

/-- `int16[i] = s < 0 ? s * 0x8000 : s * 0x7FFF` where `s` is the clamped
sample. -/
def encodeSample (s : ℚ) : Int :=
  if clampSample s < 0 then jsTrunc (clampSample s * 32768)
  else jsTrunc (clampSample s * 32767)

/-- `channelData[i] = dataInt16[i] / 32768.0` (exact: division by a power
of two). -/
def decodeSample (v : Int) : ℚ := (v : ℚ) / 32768

/-- `createPcmBlob` restricted to its numeric content: the `Int16Array`
built from the float samples.  (The base64 text wrapper is a bijective
transport encoding and carries no further numeric content.) -/
def createPcmBlob (data : List ℚ) : List Int := data.map encodeSample

/-- The two bytes of one stored 16-bit sample as seen through the
`Uint8Array` view: two's-complement, low byte first (little-endian). -/
def sampleBytes (v : Int) : List Nat :=
  let u := (v % 65536).toNat
  [u % 256, u / 256]

/-- The raw byte stream `new Uint8Array(int16.buffer)` of the encoded blob. -/
def pcmBytes (data : List ℚ) : List Nat :=
  (createPcmBlob data).flatMap sampleBytes

/-- Reading a 16-bit two's-complement value back from an unsigned 16-bit
word, as the `Int16Array` view in `decodeAudioData` does. -/
def int16OfWord (u : Nat) : Int :=
  if u < 32768 then (u : Int) else (u : Int) - 65536

/-- `decodeAudioData` on a little-endian byte stream (each element an 8-bit
byte, as every element of a `Uint8Array` is): reassemble each pair of bytes
into a signed 16-bit sample and divide by 32768.0.  (A trailing odd byte is
dropped, as the `Int16Array` view drops it.) -/
def decodeAudioData : List Nat → List ℚ
  | b0 :: b1 :: rest => decodeSample (int16OfWord (b0 + 256 * b1)) :: decodeAudioData rest
  | _ => []

/-- The spec's own words for the encoder (§4.1), for refinement against
`encodeSample`: clamp to [-1,1], scale by 32767 if the clamped value is
non-negative and by 32768 if it is negative, truncate to an integer. -/
def encodeSampleSpec (s : ℚ) : Int :=
  if 0 ≤ max (-1) (min 1 s) then jsTrunc (max (-1) (min 1 s) * 32767)
  else jsTrunc (max (-1) (min 1 s) * 32768)

/-! ## Tool-call dispatch (`onmessage`, part_000 lines 88-126)

The handler loops over `msg.toolCall.functionCalls`; for each call named
`moveRobot` it derives the `MotorCommand`, `await`s
`this.config.onToolCall(cmd)` — there is no `try`/`catch`, so a rejected
promise aborts the whole `async` handler — and then queues
`sendToolResponse` with the call's `id` and `name`.  The embedding records
the handler's observable behaviour as a trace of events in temporal order;
a sink rejection is `Except.error`, which aborts the remaining iterations
exactly as the un-caught `await` does. -/

/-- Observable events of the tool-dispatch path, in temporal order:
`dispatch` marks the sink invocation (`onToolCall(cmd)` issued), `resolved`
marks its promise resolving, `response` marks `sendToolResponse` being
queued with `{id, name, response: {result}}`. -/
inductive ToolEvent where
  | dispatch (id : String) (cmd : MotorCommand)
  | resolved (id : String) (result : String)
  | response (id : String) (name : String) (result : String)
deriving DecidableEq, Repr

/-- The `for (const fc of msg.toolCall.functionCalls)` loop.  `sink` is the
external command sink `onToolCall`; `.error` models a rejected promise.
Calls not named `moveRobot` fall through the `if` with no effect. -/
def handleToolCalls (sink : MotorCommand → Except String String) :
    List FunctionCall → Except String (List ToolEvent)
  | [] => .ok []
  | fc :: rest =>
    if fc.name = "moveRobot" then
      let cmd := deriveMotorCommand fc.direction fc.speed
      match sink cmd with
      | .error e => .error e
      | .ok result =>
        match handleToolCalls sink rest with
        | .error e => .error e
        | .ok tail =>
          .ok (.dispatch fc.id cmd :: .resolved fc.id result ::
               .response fc.id fc.name result :: tail)
    else
      handleToolCalls sink rest

/-- The `(id, name, result)` triples of the responses actually sent, in
send order. -/
def sentResponses (tr : List ToolEvent) : List (String × String × String) :=
  tr.filterMap fun e =>
    match e with
    | .response i n r => some (i, n, r)
    | _ => none

/-- Trace position of the sink invocation for call `i`. -/
def dispatchIndex (tr : List ToolEvent) (i : String) : Option Nat :=
  tr.findIdx? fun e =>
    match e with
    | .dispatch j _ => j = i
    | _ => false

/-- Trace position of the sink resolution for call `i`. -/
def resolvedIndex (tr : List ToolEvent) (i : String) : Option Nat :=
  tr.findIdx? fun e =>
    match e with
    | .resolved j _ => j = i
    | _ => false

/-- Concurrent (fan-out) dispatch of a batch: every sink invocation is
issued without waiting on any other call's resolution, i.e. each dispatch
event precedes every other call's resolution event in the trace. -/
def ConcurrentDispatch (tr : List ToolEvent) : Prop :=
  ∀ i j p q, i ≠ j → dispatchIndex tr j = some p → resolvedIndex tr i = some q →
    p < q

/-! ## Teardown (`disconnect`, part_000 lines 147-153)

`disconnect` never nulls the fields it tears down.  `source.disconnect()`
and `inputProcessor.disconnect()` are no-ops when already disconnected, but
`audioContext.close()` rejects with `InvalidStateError` on an
already-closed `AudioContext`; the `await` then aborts `disconnect` before
the `onClose()` call.  The output context (`outputContext`) is not touched
by `disconnect` at all. -/

/-- Resource state of a connected service instance. -/
structure ServiceState where
  sourceConnected : Bool
  processorConnected : Bool
  audioContextClosed : Bool
  outputContextClosed : Bool
  closeCallbacks : Nat
deriving DecidableEq, Repr

/-- `AudioContext.close()`: resolves unless the context is already closed,
in which case it rejects with `InvalidStateError`. -/
def audioContextClose (closed : Bool) : Except String Unit :=
  if closed then .error "InvalidStateError" else .ok ()

/-- The body of `disconnect()`: disconnect the source and processor nodes,
`await this.audioContext.close()` (whose rejection aborts the method), then
invoke the close callback. -/
def disconnect (st : ServiceState) : Except String ServiceState :=
  let st1 : ServiceState := { st with sourceConnected := false, processorConnected := false }
  match audioContextClose st1.audioContextClosed with
  | .error e => .error e
  | .ok _ =>
    .ok { st1 with audioContextClosed := true, closeCallbacks := st1.closeCallbacks + 1 }

/-- State of a freshly connected session: both nodes attached, both audio
contexts running, close callback not yet invoked. -/
def connectedState : ServiceState :=
  { sourceConnected := true, processorConnected := true,
    audioContextClosed := false, outputContextClosed := false,
    closeCallbacks := 0 }

/-! ## Inbound content handling (`onmessage`, part_000 lines 128-137)

Only `parts?.[0]` is read: `msg.serverContent?.modelTurn?.parts?.[0]?.inlineData?.data`
for audio and `...parts?.[0]?.text` for the transcript; a falsy value
(absent or the empty string) is not played / not forwarded. -/

/-- One part of a model turn: optional inline audio data and optional text. -/
structure Part where
  inlineData : Option String
  text : Option String
deriving DecidableEq, Repr

/-- JS truthiness gate for an optional string: absent and `""` are falsy. -/
def truthy (o : Option String) : Option String :=
  match o with
  | none => none
  | some s => if s = "" then none else some s

/-- The content portion of `onmessage`: the audio chunk handed to
`playAudio` (if any) and the text handed to `onTranscript` (if any). -/
def handleContent (parts : List Part) : Option String × Option String :=
  (truthy (parts.head?.bind Part.inlineData), truthy (parts.head?.bind Part.text))

/-! ## Scene analyzer (`analyzeScene`, part_000 lines 215-235) -/

/-- Outcome of the one-shot `generateContent` call: a thrown error with a
message, or a response whose `.text` may be absent (modelled together with
the empty string, both being falsy in `response.text || ...`). -/
inductive ModelOutcome where
  | failure (msg : String)
  | success (text : String)
deriving DecidableEq, Repr

/-- Anchored literal match: if `header` is a leading segment of the second
list, return what follows it, else `none`. -/
def dropHeader : List Char → List Char → Option (List Char)
  | [], rest => some rest
  | _ :: _, [] => none
  | h :: hs, c :: cs => if c = h then dropHeader hs cs else none

/-- `base64Image.replace(/^data:image\/(png|jpeg|jpg);base64,/, '')`: an
anchored match stripping exactly one header for one of the three listed
formats; anything else is left unchanged. -/
def cleanBase64 (s : String) : String :=
  match dropHeader "data:image/png;base64,".data s.data with
  | some rest => String.mk rest
  | none =>
    match dropHeader "data:image/jpeg;base64,".data s.data with
    | some rest => String.mk rest
    | none =>
      match dropHeader "data:image/jpg;base64,".data s.data with
      | some rest => String.mk rest
      | none => s

/-- `analyzeScene`, parameterized by the outcome of the model call on the
cleaned payload.  The whole body sits in a `try`/`catch`, so every outcome
produces a result string. -/
def analyzeScene (base64Image : String) (call : String → ModelOutcome) : String :=
  match call (cleanBase64 base64Image) with
  | .failure msg => "Analysis failed: " ++ msg
  | .success t => if t = "" then "No analysis available." else t

end Bridge

namespace Bridge

theorem scheduleRun_length (st : SchedState) (evs : List (ℚ × ℚ)) :
    (scheduleRun st evs).length = evs.length := by
  induction evs generalizing st with
  | nil => rfl
  | cons e rest ih => cases e; simp [scheduleRun, playAudio, ih]

/-- Adjacent start times in a run are separated by at least the earlier
buffer's duration: the second buffer's start is `max now2 (start1 + d1)`,
which is at least `start1 + d1`. -/
theorem scheduleRun_adjacent (st : SchedState) (evs : List (ℚ × ℚ)) (i : Nat)
    (h : i + 1 < evs.length) :
    (scheduleRun st evs).getD i 0 + (evs.getD i (0, 0)).2 ≤
      (scheduleRun st evs).getD (i + 1) 0 := by
  induction evs generalizing st i with
  | nil => simp at h
  | cons e rest ih =>
    obtain ⟨now, d⟩ := e
    match i with
    | 0 =>
      match rest, h with
      | (now2, d2) :: r2, _ =>
        simp only [scheduleRun, playAudio, List.getD_cons_zero, List.getD_cons_succ]
        exact le_max_right now2 _
    | j + 1 =>
      simp only [scheduleRun, playAudio, List.getD_cons_succ]
      exact ih _ j (by simpa using h)

/-- C1: the derived `MotorCommand` follows the deterministic direction
table (`forward ↦ (speed, 0)`, `backward ↦ (-speed, 0)`,
`left ↦ (0, -speed)`, `right ↦ (0, speed)`, `stop ↦ (0, 0)`); the speed
used is 200 whenever the `speed` argument is absent or falsy; any direction
outside the enumerated set yields `(0, 0)`. -/
theorem C1_direction_table (sp : Option Int) (d : String)
    (hd : d ≠ "forward" ∧ d ≠ "backward" ∧ d ≠ "left" ∧ d ≠ "right" ∧ d ≠ "stop") :
    deriveMotorCommand "forward" sp = ⟨"move", effectiveSpeed sp, 0⟩ ∧
    deriveMotorCommand "backward" sp = ⟨"move", -effectiveSpeed sp, 0⟩ ∧
    deriveMotorCommand "left" sp = ⟨"move", 0, -effectiveSpeed sp⟩ ∧
    deriveMotorCommand "right" sp = ⟨"move", 0, effectiveSpeed sp⟩ ∧
    deriveMotorCommand "stop" sp = ⟨"move", 0, 0⟩ ∧
    ((sp = none ∨ sp = some 0) → effectiveSpeed sp = 200) ∧
    deriveMotorCommand d sp = ⟨"move", 0, 0⟩ := by
  obtain ⟨h1, h2, h3, h4, h5⟩ := hd
  refine ⟨rfl, rfl, rfl, rfl, rfl, ?_, ?_⟩
  · rintro (rfl | rfl) <;> rfl
  · simp [deriveMotorCommand, h1, h2, h3, h4, h5]

/-- Witness for C1 at direction `"spin"`, speed 150. -/
theorem C1_direction_table_witness :
    deriveMotorCommand "spin" (some 150) = ⟨"move", 0, 0⟩ ∧
    deriveMotorCommand "left" (some 150) = ⟨"move", 0, -150⟩ := by
  have h := C1_direction_table (some 150) "spin"
    ⟨by decide, by decide, by decide, by decide, by decide⟩
  exact ⟨h.2.2.2.2.2.2, h.2.2.1⟩

/-- C2: each `playAudio` call starts the buffer at
`max (deviceClock.now) nextStartTime` and advances the cursor by the
buffer's duration; consequently, over any run of buffers handled in arrival
order, consecutive start times satisfy `start (i+1) ≥ start i + duration i`. -/
theorem C2_playback_monotone (now d : ℚ) (st : SchedState) (evs : List (ℚ × ℚ))
    (i : Nat) (h : i + 1 < evs.length) :
    playAudio now d st = (max now st.nextStartTime, ⟨max now st.nextStartTime + d⟩) ∧
    (scheduleRun st evs).getD i 0 + (evs.getD i (0, 0)).2 ≤
      (scheduleRun st evs).getD (i + 1) 0 :=
  ⟨rfl, scheduleRun_adjacent st evs i h⟩

/-- Witness for C2 on a two-buffer run from cursor 0. -/
theorem C2_playback_monotone_witness :
    (scheduleRun ⟨0⟩ [(0, 2), (5, 1)]).getD 0 0 + 2 ≤
      (scheduleRun ⟨0⟩ [(0, 2), (5, 1)]).getD 1 0 := by
  have h := (C2_playback_monotone 1 1 ⟨0⟩ [(0, 2), (5, 1)] 0 (by decide)).2
  simpa using h

/-- C3 counterexample: the dispatch is not concurrent.  On a batch of two
`moveRobot` calls with a sink that resolves every call, the handler's trace
dispatches the second call (position 3) only after the first call's sink
resolution (position 1): each `await` serializes the loop, so a fan-out
("dispatched independently and concurrently") does not happen. -/
theorem C3_counterexample :
    handleToolCalls (fun _ => .ok "ok")
        [⟨"a", "moveRobot", "forward", none⟩, ⟨"b", "moveRobot", "stop", none⟩] =
      .ok [.dispatch "a" ⟨"move", 200, 0⟩, .resolved "a" "ok",
           .response "a" "moveRobot" "ok", .dispatch "b" ⟨"move", 0, 0⟩,
           .resolved "b" "ok", .response "b" "moveRobot" "ok"] ∧
    ¬ ConcurrentDispatch
        [.dispatch "a" ⟨"move", 200, 0⟩, .resolved "a" "ok",
         .response "a" "moveRobot" "ok", .dispatch "b" ⟨"move", 0, 0⟩,
         .resolved "b" "ok", .response "b" "moveRobot" "ok"] := by
  refine ⟨rfl, fun hc => ?_⟩
  have h := hc "a" "b" 3 1 (by decide) (by decide) (by decide)
  omega

/-- C3 amended: the calls of a batch are processed sequentially in batch
order — a `moveRobot` call's dispatch, resolution and response-queuing all
precede the processing of the remaining calls — and when the sink resolves
every call, one response per `moveRobot` call is sent, in call order, each
carrying the originating call's unchanged id and name. -/
theorem C3_sequential_responses (f : MotorCommand → String) (batch : List FunctionCall)
    (fc : FunctionCall) (rest : List FunctionCall) (hname : fc.name = "moveRobot") :
    Except.map sentResponses (handleToolCalls (fun c => .ok (f c)) batch) =
      .ok ((batch.filter fun c => c.name = "moveRobot").map
        fun c => (c.id, c.name, f (deriveMotorCommand c.direction c.speed))) ∧
    handleToolCalls (fun c => .ok (f c)) (fc :: rest) =
      Except.map
        (fun tail =>
          .dispatch fc.id (deriveMotorCommand fc.direction fc.speed) ::
          .resolved fc.id (f (deriveMotorCommand fc.direction fc.speed)) ::
          .response fc.id fc.name (f (deriveMotorCommand fc.direction fc.speed)) :: tail)
        (handleToolCalls (fun c => .ok (f c)) rest) := by
  constructor
  · induction batch with
    | nil => rfl
    | cons c cs ih =>
      cases hrest : handleToolCalls (fun c => .ok (f c)) cs with
      | error e => rw [hrest] at ih; simp [Except.map] at ih
      | ok tail =>
        rw [hrest] at ih
        simp only [Except.map, Except.ok.injEq] at ih
        by_cases hc : c.name = "moveRobot"
        · simp [handleToolCalls, hc, hrest, Except.map, sentResponses,
            List.filterMap_cons, List.filter_cons, ← ih, sentResponses]
        · simp [handleToolCalls, hc, hrest, Except.map, List.filter_cons, ih]
  · cases hrest : handleToolCalls (fun c => .ok (f c)) rest with
    | error e => simp [handleToolCalls, hname, hrest, Except.map]
    | ok tail => simp [handleToolCalls, hname, hrest, Except.map]

/-- Witness for C3's amended statement on a concrete two-call batch. -/
theorem C3_sequential_responses_witness :
    Except.map sentResponses (handleToolCalls
        (fun c => .ok (if c.throttle = 0 then "idle" else "moving"))
        [⟨"a", "moveRobot", "forward", none⟩, ⟨"b", "other", "stop", none⟩]) =
      .ok [("a", "moveRobot", "moving")] ∧
    handleToolCalls (fun c => .ok (if c.throttle = 0 then "idle" else "moving"))
        [⟨"a", "moveRobot", "forward", none⟩, ⟨"b", "other", "stop", none⟩] =
      Except.map
        (fun tail =>
          .dispatch "a" (deriveMotorCommand "forward" none) ::
          .resolved "a" (if (deriveMotorCommand "forward" none).throttle = 0 then "idle" else "moving") ::
          .response "a" "moveRobot"
            (if (deriveMotorCommand "forward" none).throttle = 0 then "idle" else "moving") :: tail)
        (handleToolCalls (fun c => .ok (if c.throttle = 0 then "idle" else "moving"))
          [⟨"b", "other", "stop", none⟩]) := by
  have h := C3_sequential_responses
    (fun c => if c.throttle = 0 then "idle" else "moving")
    [⟨"a", "moveRobot", "forward", none⟩, ⟨"b", "other", "stop", none⟩]
    ⟨"a", "moveRobot", "forward", none⟩ [⟨"b", "other", "stop", none⟩] rfl
  exact ⟨by rw [h.1]; rfl, h.2⟩

/-- C6 counterexample: with a sink that rejects, the single `moveRobot`
call's failure is not converted into a result string — the rejection
propagates out of the dispatch path (`Except.error`), so no tool response
is sent for the call. -/
theorem C6_counterexample :
    handleToolCalls (fun _ => .error "sink rejected")
        [⟨"a", "moveRobot", "forward", none⟩] = .error "sink rejected" := rfl

/-- C6 amended: a rejection from the external sink is not caught by the
dispatcher: it propagates out of the tool-dispatch path as an error, no
tool response is sent for the failed call, and the remaining calls of the
batch are not processed. -/
theorem C6_rejection_propagates (sink : MotorCommand → Except String String)
    (fc : FunctionCall) (rest : List FunctionCall) (e : String)
    (hname : fc.name = "moveRobot")
    (hsink : sink (deriveMotorCommand fc.direction fc.speed) = .error e) :
    handleToolCalls sink (fc :: rest) = .error e := by
  simp [handleToolCalls, hname, hsink]

/-- Witness for C6's amended statement with a concrete rejecting sink. -/
theorem C6_rejection_propagates_witness :
    handleToolCalls (fun _ => Except.error "boom")
        [⟨"a", "moveRobot", "left", some 100⟩, ⟨"b", "moveRobot", "stop", none⟩] =
      .error "boom" :=
  C6_rejection_propagates (fun _ => Except.error "boom")
    ⟨"a", "moveRobot", "left", some 100⟩ [⟨"b", "moveRobot", "stop", none⟩]
    "boom" rfl rfl

/-- C9: a function call whose name is not `moveRobot` is silently skipped —
removing it from the batch changes nothing (no sink invocation, no
response), and a whole batch behaves exactly as its `moveRobot`-only
subsequence. -/
theorem C9_skip_other_names (sink : MotorCommand → Except String String)
    (batch : List FunctionCall) (fc : FunctionCall) (h : fc.name ≠ "moveRobot") :
    handleToolCalls sink (fc :: batch) = handleToolCalls sink batch ∧
    handleToolCalls sink batch =
      handleToolCalls sink (batch.filter fun c => c.name = "moveRobot") := by
  refine ⟨by simp [handleToolCalls, h], ?_⟩
  induction batch with
  | nil => rfl
  | cons c cs ih =>
    by_cases hc : c.name = "moveRobot"
    · simp [handleToolCalls, hc, ih, List.filter_cons]
    · simp [handleToolCalls, hc, ih, List.filter_cons]

/-- Witness for C9 at a concrete non-`moveRobot` call. -/
theorem C9_skip_other_names_witness :
    handleToolCalls (fun _ => .ok "ok")
        [⟨"x", "takePhoto", "forward", none⟩, ⟨"a", "moveRobot", "stop", none⟩] =
      handleToolCalls (fun _ => .ok "ok") [⟨"a", "moveRobot", "stop", none⟩] ∧
    handleToolCalls (fun _ => .ok "ok") [⟨"a", "moveRobot", "stop", none⟩] =
      handleToolCalls (fun _ => .ok "ok")
        ([⟨"a", "moveRobot", "stop", none⟩].filter fun c => c.name = "moveRobot") :=
  C9_skip_other_names (fun _ => .ok "ok") [⟨"a", "moveRobot", "stop", none⟩]
    ⟨"x", "takePhoto", "forward", none⟩ (by decide)

/-- C7 counterexample: `disconnect` is not idempotent.  From a freshly
connected state the first call succeeds (and leaves the output context
un-released, `outputContextClosed = false`), but the second call fails:
`audioContext.close()` rejects with `InvalidStateError` on the already
closed context, because `disconnect` never nulls the fields it tears
down. -/
theorem C7_counterexample :
    disconnect connectedState = .ok ⟨false, false, true, false, 1⟩ ∧
    disconnect ⟨false, false, true, false, 1⟩ = .error "InvalidStateError" :=
  ⟨rfl, rfl⟩

/-- C7 amended: a first `disconnect` on an open capture context succeeds,
closes it and invokes the close callback once, but leaves the output
context untouched (the output device is never released by `disconnect`);
any later `disconnect` fails with `InvalidStateError` before reaching the
close callback, so calling it twice in succession produces an error. -/
theorem C7_disconnect_behaviour (st : ServiceState) :
    (st.audioContextClosed = false →
      disconnect st = .ok { st with sourceConnected := false,
                                    processorConnected := false,
                                    audioContextClosed := true,
                                    closeCallbacks := st.closeCallbacks + 1 }) ∧
    (st.audioContextClosed = true → disconnect st = .error "InvalidStateError") ∧
    (∀ st2, disconnect st = .ok st2 → st2.outputContextClosed = st.outputContextClosed) ∧
    (st.audioContextClosed = false →
      (disconnect st).bind disconnect = .error "InvalidStateError") := by
  refine ⟨?_, ?_, ?_, ?_⟩
  · intro h; simp [disconnect, audioContextClose, h]
  · intro h; simp [disconnect, audioContextClose, h]
  · intro st2 h
    by_cases hc : st.audioContextClosed
    · simp [disconnect, audioContextClose, hc] at h
    · simp only [disconnect, audioContextClose, hc, if_neg, Bool.false_eq_true,
        not_false_eq_true, Except.ok.injEq] at h
      rw [← h]
  · intro h
    simp [disconnect, audioContextClose, h, Except.bind]

/-- Witness for C7 from the freshly connected state: the second of two
successive `disconnect` calls errors. -/
theorem C7_disconnect_behaviour_witness :
    (disconnect connectedState).bind disconnect = .error "InvalidStateError" :=
  (C7_disconnect_behaviour connectedState).2.2.2 rfl

/-- C8 counterexample: the header-stripping step does not strip *any*
embedded data-URL format-prefix header — a `gif` data URL is passed
through unchanged, its header intact. -/
theorem C8_counterexample :
    cleanBase64 "data:image/gif;base64,QUJD" = "data:image/gif;base64,QUJD" ∧
    cleanBase64 "data:image/gif;base64,QUJD" ≠ "QUJD" :=
  ⟨rfl, by decide⟩

/-- C8 amended: the Scene Analyzer is a stateless one-shot operation that
strips an embedded data-URL header exactly when its format is `png`,
`jpeg` or `jpg`, sends the remainder with the fixed prompt, and returns the
model's text response; every error is caught and returned as
`"Analysis failed: <message>"` (and an empty/absent response text becomes
`"No analysis available."`), so nothing raises past the boundary. -/
theorem C8_analyzeScene_contract (img failMsg text p : String) (htext : text ≠ "") :
    cleanBase64 ("data:image/png;base64," ++ p) = p ∧
    cleanBase64 ("data:image/jpeg;base64," ++ p) = p ∧
    cleanBase64 ("data:image/jpg;base64," ++ p) = p ∧
    analyzeScene img (fun _ => .failure failMsg) = "Analysis failed: " ++ failMsg ∧
    analyzeScene img (fun _ => .success "") = "No analysis available." ∧
    analyzeScene img (fun _ => .success text) = text := by
  refine ⟨rfl, rfl, rfl, rfl, rfl, ?_⟩
  simp [analyzeScene, htext]

/-- Witness for C8 on a concrete image and model outcome. -/
theorem C8_analyzeScene_contract_witness :
    cleanBase64 ("data:image/jpeg;base64," ++ "QUJD") = "QUJD" ∧
    analyzeScene "frame" (fun _ => .failure "bad image") = "Analysis failed: " ++ "bad image" ∧
    analyzeScene "frame" (fun _ => .success "clear path") = "clear path" := by
  have h := C8_analyzeScene_contract "frame" "bad image" "clear path" "QUJD" (by decide)
  exact ⟨h.2.1, h.2.2.2.1, h.2.2.2.2.2⟩

/-- C10: only `parts[0]` of an inbound message's model turn is inspected —
the handled content equals that of the message truncated to its first
part, and is unchanged under any replacement of the later parts, so audio
or text carried in a later part is never played and never forwarded. -/
theorem C10_only_first_part (parts : List Part) (p : Part) (r1 r2 : List Part) :
    handleContent parts = handleContent (parts.take 1) ∧
    handleContent (p :: r1) = handleContent (p :: r2) := by
  refine ⟨?_, rfl⟩
  cases parts <;> rfl

theorem clampSample_lb (s : ℚ) : -1 ≤ clampSample s := le_max_left _ _

theorem clampSample_ub (s : ℚ) : clampSample s ≤ 1 :=
  max_le (by norm_num) (min_le_left _ _)

theorem clampSample_eq (s : ℚ) (h1 : -1 ≤ s) (h2 : s ≤ 1) : clampSample s = s := by
  rw [clampSample, min_eq_right h2, max_eq_right h1]

/-- Every encoded sample fits a signed 16-bit integer, so the
`Int16Array` store never wraps. -/
theorem encodeSample_range (s : ℚ) :
    -32768 ≤ encodeSample s ∧ encodeSample s ≤ 32767 := by
  have hlb := clampSample_lb s
  have hub := clampSample_ub s
  rw [encodeSample]
  by_cases h : clampSample s < 0
  · rw [if_pos h]
    simp only [jsTrunc, if_pos (mul_neg_of_neg_of_pos h (by norm_num : (0:ℚ) < 32768))]
    constructor
    · have hc : ((-32768 : ℤ) : ℚ) ≤ clampSample s * 32768 := by push_cast; nlinarith
      calc (-32768 : ℤ) = ⌈((-32768 : ℤ) : ℚ)⌉ := (Int.ceil_intCast _).symm
        _ ≤ ⌈clampSample s * 32768⌉ := Int.ceil_mono hc
    · have h0 : ⌈clampSample s * 32768⌉ ≤ 0 := by
        apply Int.ceil_le.mpr
        push_cast
        nlinarith
      omega
  · push_neg at h
    rw [if_neg (not_lt.mpr h)]
    simp only [jsTrunc, if_neg (not_lt.mpr (mul_nonneg h (by norm_num : (0:ℚ) ≤ 32767)))]
    constructor
    · have h0 : (0 : ℤ) ≤ ⌊clampSample s * 32767⌋ := by
        apply Int.le_floor.mpr
        push_cast
        nlinarith
      omega
    · have hc : clampSample s * 32767 ≤ ((32767 : ℤ) : ℚ) := by push_cast; nlinarith
      calc ⌊clampSample s * 32767⌋ ≤ ⌊((32767 : ℤ) : ℚ)⌋ := Int.floor_mono hc
        _ = 32767 := Int.floor_intCast _

/-- Little-endian pack/unpack round-trip for one in-range 16-bit sample. -/
theorem decodeAudioData_sampleBytes (v : Int) (h1 : -32768 ≤ v) (h2 : v ≤ 32767)
    (rest : List Nat) :
    decodeAudioData (sampleBytes v ++ rest) = decodeSample v :: decodeAudioData rest := by
  have hword : (v % 65536).toNat % 256 + 256 * ((v % 65536).toNat / 256) =
      (v % 65536).toNat := Nat.mod_add_div _ _
  have hv : int16OfWord ((v % 65536).toNat) = v := by
    rw [int16OfWord]
    split <;> omega
  simp only [sampleBytes, List.cons_append, List.nil_append, decodeAudioData,
    hword, hv, List.append]

/-- Decoding the packed byte stream of an encoded sample list is the
per-sample round-trip. -/
theorem decode_pcm (x : List ℚ) :
    decodeAudioData (pcmBytes x) = x.map fun s => decodeSample (encodeSample s) := by
  induction x with
  | nil => rfl
  | cons s rest ih =>
    have hbytes : pcmBytes (s :: rest) =
        sampleBytes (encodeSample s) ++ pcmBytes rest := rfl
    obtain ⟨hr1, hr2⟩ := encodeSample_range s
    rw [hbytes, decodeAudioData_sampleBytes _ hr1 hr2, ih, List.map_cons]

/-- Per-sample round-trip error bound of the codec pair actually in the
code (encode scales a non-negative sample by 32767 but decode divides by
32768, so the error can reach almost `2/32768` on positive samples). -/
theorem roundtrip_close (s : ℚ) (h1 : -1 ≤ s) (h2 : s ≤ 1) :
    |s - decodeSample (encodeSample s)| ≤ 2 / 32768 := by
  rw [encodeSample, clampSample_eq s h1 h2]
  by_cases hs : s < 0
  · rw [if_pos hs]
    simp only [jsTrunc, if_pos (mul_neg_of_neg_of_pos hs (by norm_num : (0:ℚ) < 32768)),
      decodeSample]
    have h3 := Int.le_ceil (s * 32768)
    have h4 := Int.ceil_lt_add_one (s * 32768)
    rw [abs_le]
    constructor <;> linarith
  · push_neg at hs
    rw [if_neg (not_lt.mpr hs)]
    simp only [jsTrunc,
      if_neg (not_lt.mpr (mul_nonneg hs (by norm_num : (0:ℚ) ≤ 32767))), decodeSample]
    have h3 := Int.floor_le (s * 32767)
    have h4 := Int.lt_floor_add_one (s * 32767)
    rw [abs_le]
    constructor <;> linarith

theorem getD_map_roundtrip (x : List ℚ) (i : Nat) (hi : i < x.length) :
    (x.map fun s => decodeSample (encodeSample s)).getD i 0 =
      decodeSample (encodeSample (x.getD i 0)) := by
  induction x generalizing i with
  | nil => simp at hi
  | cons a l ih =>
    cases i with
    | zero => simp
    | succ j =>
      simp only [List.map_cons, List.getD_cons_succ]
      exact ih j (by simpa using hi)

theorem getD_mem_of_lt (x : List ℚ) (i : Nat) (hi : i < x.length) : x.getD i 0 ∈ x := by
  induction x generalizing i with
  | nil => simp at hi
  | cons a l ih =>
    cases i with
    | zero => simp
    | succ j => exact List.mem_cons_of_mem _ (ih j (by simpa using hi))

/-- C4 counterexample: at the sample `0.9999` the decoded value differs
from the original by `17232/327680000 ≈ 1.72/32768`, which exceeds the
claimed `1/32768` per-sample bound (the encoder scales a non-negative
sample by 32767 while the decoder divides by 32768). -/
theorem C4_counterexample :
    ¬ (|(9999/10000 : ℚ) - decodeSample (encodeSample (9999/10000))| ≤ 1 / 32768) := by
  have hclamp : clampSample (9999/10000 : ℚ) = 9999/10000 := by
    rw [clampSample]
    norm_num
  have hfloor : ⌊(9999/10000 : ℚ) * 32767⌋ = 32763 := by
    rw [Int.floor_eq_iff]
    constructor <;> norm_num
  have henc : encodeSample (9999/10000 : ℚ) = 32763 := by
    rw [encodeSample, hclamp, if_neg (by norm_num)]
    simp only [jsTrunc, if_neg (by norm_num : ¬ ((9999/10000 : ℚ) * 32767 < 0))]
    exact hfloor
  rw [henc]
  simp only [decodeSample]
  rw [abs_of_nonneg (by norm_num)]
  norm_num

/-- C4 amended: decoding the encoded PCM bytes reproduces every sample of
an array with values in `[-1, 1]` within `2/32768` per sample (not
`1/32768`). -/
theorem C4_roundtrip_within_two (x : List ℚ) (hx : ∀ s ∈ x, -1 ≤ s ∧ s ≤ 1) :
    decodeAudioData (pcmBytes x) = (x.map fun s => decodeSample (encodeSample s)) ∧
    ∀ i, i < x.length →
      |x.getD i 0 - (decodeAudioData (pcmBytes x)).getD i 0| ≤ 2 / 32768 := by
  refine ⟨decode_pcm x, ?_⟩
  intro i hi
  rw [decode_pcm x, getD_map_roundtrip x i hi]
  obtain ⟨hl, hr⟩ := hx _ (getD_mem_of_lt x i hi)
  exact roundtrip_close _ hl hr

/-- Witness for C4's amended bound on a concrete two-sample array. -/
theorem C4_roundtrip_within_two_witness :
    |((1:ℚ)/2) - (decodeAudioData (pcmBytes [1/2, -1])).getD 0 0| ≤ 2 / 32768 := by
  have h := (C4_roundtrip_within_two [1/2, -1]
    (by intro s hs; simp [List.mem_cons] at hs; rcases hs with rfl | rfl <;> norm_num)).2
    0 (by norm_num)
  simpa using h

/-- C5: the encoder clamps to `[-1, 1]`, scales by 32767 for non-negative
clamped values and by 32768 for negative ones, truncates toward zero to a
16-bit signed integer (`encodeSample = encodeSampleSpec`, with every value
in range), packs little-endian; the decoder divides each 16-bit integer by
32768; and encoding is deterministic (identical input gives bit-identical
output). -/
theorem C5_encoder_contract (x y : List ℚ) (hxy : x = y) :
    (∀ s : ℚ, encodeSample s = encodeSampleSpec s) ∧
    (∀ s : ℚ, -32768 ≤ encodeSample s ∧ encodeSample s ≤ 32767) ∧
    (∀ v : Int, decodeSample v = (v : ℚ) / 32768) ∧
    pcmBytes x = pcmBytes y ∧
    decodeAudioData (pcmBytes x) = (x.map fun s => decodeSample (encodeSample s)) := by
  refine ⟨?_, encodeSample_range, fun v => rfl, by rw [hxy], decode_pcm x⟩
  intro s
  simp only [encodeSample, encodeSampleSpec, clampSample]
  by_cases h : max (-1) (min 1 s) < 0
  · rw [if_pos h, if_neg (not_le.mpr h)]
  · rw [if_neg h, if_pos (not_lt.mp h)]

/-- Witness for C5 at a concrete sample list. -/
theorem C5_encoder_contract_witness :
    pcmBytes [(1:ℚ)/2] = pcmBytes [(1:ℚ)/2] ∧
    encodeSample ((1:ℚ)/2) = encodeSampleSpec ((1:ℚ)/2) := by
  have h := C5_encoder_contract [(1:ℚ)/2] [(1:ℚ)/2] rfl
  exact ⟨h.2.2.2.1, h.1 _⟩

end Bridge
